import Mathlib

/-!
# Verification of the async-pdf layout engine

A shallow embedding, over `ℚ`, of the unit/coordinate normalization and
bounded multi-page composition engine of the `async-pdf` repository
(canonical implementation: `src/core/pdf.ts` together with the utility
modules `unitNormalizer`, `verticalAlignmentFormatter` and
`getPageSizeByUnit`).

Modelling conventions:
* JavaScript numbers are modelled as rationals (`ℚ`).
* `parseFloat(x.toFixed(2))` is modelled by `round2` (round to two decimal
  places, ties toward positive infinity, as the ECMAScript `toFixed`
  specification prescribes).
* optional values (`x?: number`) are modelled as `Option ℚ`; the JavaScript
  truthiness idiom `x || d` on numbers (which falls back on `undefined`
  and on `0`) is modelled by `jsOr`.
* the filesystem is an association list from paths to serialized documents;
  a serialized single-document PDF file is its list of page identifiers.
* thrown exceptions are modelled by returning the state reached so far
  paired with `some error` (a JavaScript `throw` aborts the rest of the
  method but keeps the mutations already performed).
-/

namespace AsyncPDF

/-- Model of `parseFloat(x.toFixed(2))`: round to two decimal places, ties toward
positive infinity (ECMAScript `Number.prototype.toFixed`: pick the larger
candidate on a tie). -/
def round2 (x : ℚ) : ℚ := (Int.floor (x * 100 + 1/2) : ℚ) / 100

/-- The closed set of unit keywords of `PDFUnitTypes`
(`'pt' | 'px' | 'in' | 'cm' | 'em' | 'mm' | 'ex' | 'pc'`); `in` is a Lean
keyword, so inches are written `inch`. -/
inductive PDFUnit
  | pt | px | inch | cm | em | mm | ex | pc
  deriving DecidableEq, Repr

/-- Model of `unitNormalizerToPT` from `src/utils/unitNormalizer.ts`: converts a
value in `unit` to points.  `if(!value) return 0` catches both an absent
and a zero value; an absent unit falls to the `default` branch and returns
the value unchanged. -/
def unitNormalizerToPT (unit : Option PDFUnit) (value : Option ℚ) : ℚ :=
  match value with
  | none => 0
  | some v =>
    if v = 0 then 0 else
    match unit with
    | some .pt => v
    | some .px => round2 (v * (0.75 : ℚ))
    | some .inch => round2 (v * (72 : ℚ))
    | some .cm => round2 (v * (28.3465 : ℚ))
    | some .em => round2 (v * (0.0836 : ℚ))
    | some .mm => round2 (v * (2.83465 : ℚ))
    | some .ex => round2 (v * (4.30554 : ℚ))
    | some .pc => round2 (v * (12 : ℚ))
    | none => v

/-- Model of `unitNormalizerFromPT` from `src/utils/unitNormalizer.ts`: converts a
value in points back to `unit`. -/
def unitNormalizerFromPT (unit : Option PDFUnit) (value : Option ℚ) : ℚ :=
  match value with
  | none => 0
  | some v =>
    if v = 0 then 0 else
    match unit with
    | some .pt => v
    | some .px => round2 (v * (1.3333333333333333 : ℚ))
    | some .inch => round2 (v * (0.013888888888888888 : ℚ))
    | some .cm => round2 (v * (0.0352778 : ℚ))
    | some .em => round2 (v * (0.0836 : ℚ))
    | some .mm => round2 (v * (0.352778 : ℚ))
    | some .ex => round2 (v * (0.23255 : ℚ))
    | some .pc => round2 (v * (0.08333 : ℚ))
    | none => v

/-- Text alignment keywords (`PDFTextAligns`). -/
inductive PDFTextAligns
  | left | center | right
  deriving DecidableEq, Repr

/-- Model of `PDFVerticalAlignmentFormatter` (the canonical alignment resolver used
by `src/core/pdf.ts`): `center` subtracts half the extent, `right`
subtracts the whole extent, `left` and the `default` branch (an absent
alignment) leave the position unchanged. -/
def PDFVerticalAlignmentFormatter (align : Option PDFTextAligns) (position size : ℚ) : ℚ :=
  match align with
  | some .center => position - size / 2
  | some .left => position
  | some .right => position - size
  | none => position

/-- The legacy `verticalAlignmentFormatter` from
`src/utils/verticalAlignmentFormatter.ts` (used only by the historical
duplicate engine in `src/index.ts`): its `center` branch computes
`position - (size / 2)` without assigning it, so `center` leaves the
position unchanged. -/
def verticalAlignmentFormatter (align : Option PDFTextAligns) (position size : ℚ) : ℚ :=
  match align with
  | some .center => position
  | some .left => position
  | some .right => position - size
  | none => position

/-! ## Data model (`src/interfaces`, `src/types`) -/

/-- Page orientation keywords (`PDFPageOrientationTypes`). -/
inductive PDFPageOrientationTypes
  | portrait | landscape
  deriving DecidableEq, Repr

/-- RGBA color (`PDFRGBA`): `r`,`g`,`b` in `[0,1]`, alpha `a` in `[0,1]`. -/
structure PDFRGBA where
  r : ℚ
  g : ℚ
  b : ℚ
  a : ℚ
  deriving DecidableEq, Repr

/-- The RGB triple handed to the external library's `rgb(...)`. -/
structure RGB where
  r : ℚ
  g : ℚ
  b : ℚ
  deriving DecidableEq, Repr

/-- A caller-supplied position (`PDFPositions`): horizontal `linePosition`
and vertical `columnPosition`, in the document's current unit. -/
structure PDFPositions where
  linePosition : ℚ
  columnPosition : ℚ
  deriving DecidableEq, Repr

/-- Caller-facing page spacing (margins), every field optional. -/
structure PDFPageSpacingOpt where
  top : Option ℚ := none
  bottom : Option ℚ := none
  left : Option ℚ := none
  right : Option ℚ := none
  deriving DecidableEq, Repr

/-- Normalized page spacing (`PDFPageSpacing` after `normalizePageSpacing`),
in points. -/
structure PDFPageSpacing where
  top : ℚ
  bottom : ℚ
  left : ℚ
  right : ℚ
  deriving DecidableEq, Repr

/-- Absolute page bounds (`PDFPageFraming`), in points. -/
structure PDFPageFraming where
  lineStartPosition : ℚ
  lineEndPosition : ℚ
  columnStartPosition : ℚ
  columnEndPosition : ℚ
  deriving DecidableEq, Repr

/-- The drawable sub-rectangle (`PDFPageLimits`). -/
structure PDFPageLimits where
  startColumn : ℚ
  startLine : ℚ
  endColumn : ℚ
  endLine : ℚ
  deriving DecidableEq, Repr

/-- Caller-facing page size (`PDFPageSize`): `line` = width, `column` =
height, in the caller's unit. -/
structure PDFPageSize where
  line : ℚ
  column : ℚ
  deriving DecidableEq, Repr

/-- Model of `PDFCreateOptions` (`src/interfaces/createOptions.ts`): every field
optional. The font is identified by its name (the external font object
obtained from `embedFont` is modelled through the `embedF` parameter of the
operations that embed fonts). -/
structure PDFCreateOptions where
  unit : Option PDFUnit := none
  orientation : Option PDFPageOrientationTypes := none
  pageSize : Option PDFPageSize := none
  pageSpacing : Option PDFPageSpacingOpt := none
  font : Option String := none
  fontSize : Option ℚ := none
  fontColor : Option PDFRGBA := none

/-- An embedded font object (`PDFFont` of the external library): the engine
only uses its two measurement methods. -/
structure PDFFontM where
  heightAtSize : ℚ → ℚ
  widthOfTextAtSize : String → ℚ → ℚ

/-- The JavaScript idiom `x || d` on an optional number: falls back to `d`
when `x` is `undefined` or `0` (both falsy). -/
def jsOr (v : Option ℚ) (d : ℚ) : ℚ :=
  match v with
  | none => d
  | some x => if x = 0 then d else x

/-- Model of `PDFGetPageSizeByUnit` (`src/utils/getPageSizeByUnit.ts`): `undefined`
unless both a unit and a page size are supplied; otherwise both dimensions
converted to points. -/
def PDFGetPageSizeByUnit (unit : Option PDFUnit) (pageSize : Option PDFPageSize) :
    Option (ℚ × ℚ) :=
  match unit, pageSize with
  | some u, some ps =>
    some (unitNormalizerToPT (some u) (some ps.line), unitNormalizerToPT (some u) (some ps.column))
  | _, _ => none

/-- Model of `PageSizes.A4` of the external library. -/
def pageSizesA4 : ℚ × ℚ := (595.28, 841.89)

/-- Model of `setOrientation`: swap width and height when landscape, keep them
otherwise. -/
def applyOrientation (orientation : PDFPageOrientationTypes) (pageSize : ℚ × ℚ) : ℚ × ℚ :=
  match orientation with
  | .landscape => (pageSize.2, pageSize.1)
  | .portrait => pageSize

/-! ## Scratch storage -/

/-- A file path: `scratch n` is `this.file + "part" + n` (the instance's
random scratch prefix plus the 1-based page index), `user s` is any
caller-supplied path. -/
inductive Path
  | scratch : Nat → Path
  | user : String → Path
  deriving DecidableEq, Repr

/-- A serialized PDF document is modelled by its list of page identifiers. -/
abbrev PDFFile := List Nat

/-- The filesystem: an association list, later writes shadowing earlier
ones. -/
abbrev FS := List (Path × PDFFile)

/-- Read a file (`readFilePromise`): first (most recent) entry wins. -/
def fsRead (fs : FS) (p : Path) : Option PDFFile :=
  match fs with
  | [] => none
  | (q, c) :: rest => if q = p then some c else fsRead rest p

/-- Model of `existsSync`. -/
def existsFS (fs : FS) (p : Path) : Bool :=
  (fsRead fs p).isSome

/-- Write (or overwrite) a file (`writeFilePromise` with flag `w`). -/
def fsWrite (fs : FS) (p : Path) (c : PDFFile) : FS :=
  (p, c) :: fs

/-- Delete a file (`unlinkPromise`): removes every (shadowed) entry. -/
def fsUnlink (fs : FS) (p : Path) : FS :=
  fs.filter (fun e => e.1 != p)

/-! ## Errors (`src/core/pdf.ts`, the `//errors` block)

The thrown messages format the offending values (converted back to the
caller's unit for the range errors); the constructors carry the raw point
values. `ioError` is not one of the engine's own error kinds: it stands for
an unhandled rejection of the external file/page API (reading a missing
file, copying from an empty document). -/

inductive PDFError
  | pageDoesNotExist (pageNumber : Nat)
  | pagesForMergeDoesNotExist
  | columnIsOutRange (column range : ℚ)
  | columnWithHeightIsOutRange (column range : ℚ)
  | lineIsOutRange (line range : ℚ)
  | lineWithWidthIsOutRange (line range : ℚ)
  | negativeNumber (attributeName : String) (value : ℚ)
  | filePathDoesNotExist (filePath : Path)
  | pdfFilesPathEmpty
  | ioError (filePath : Path)
  deriving DecidableEq, Repr

/-- The four bounds-violation kinds of §7 (`OutOfRangeColumn`,
`OutOfRangeColumnWithHeight`, `OutOfRangeLine`, `OutOfRangeLineWithWidth`). -/
def outOfRangePDFError : PDFError → Bool
  | .columnIsOutRange _ _ => true
  | .columnWithHeightIsOutRange _ _ => true
  | .lineIsOutRange _ _ => true
  | .lineWithWidthIsOutRange _ _ => true
  | _ => false

/-! ## Instance state (the private fields of class `PDF`) -/

/-- One drawing primitive handed to the external library; the fields are
exactly the values the engine passes (`none` = the argument is left
`undefined`, so the library default applies). Pass-through styling options
of `drawLine`/`drawRectangle` that the engine copies verbatim
(`borderLineCap`, dash pattern) are omitted. -/
inductive DrawCmd
  | text (value : String) (x y size : ℚ) (color : RGB) (opacity : ℚ)
  | line (startX startY endX endY : ℚ) (thickness : ℚ) (color : RGB)
  | rectangle (x y width height : ℚ) (color : Option RGB) (opacity : Option ℚ)
      (borderColor : RGB) (borderOpacity : ℚ) (borderWidth : Option ℚ)
  deriving DecidableEq, Repr

/-- The opacity argument a draw command passes to the external library
(`drawLine` passes none at all). -/
def drawOpacity : DrawCmd → Option ℚ
  | .text _ _ _ _ _ o => some o
  | .line _ _ _ _ _ _ => none
  | .rectangle _ _ _ _ _ o _ _ _ => o

/-- The fill color argument of a draw command. -/
def drawColor : DrawCmd → Option RGB
  | .text _ _ _ _ c _ => some c
  | .line _ _ _ _ _ c => some c
  | .rectangle _ _ _ _ c _ _ _ _ => c

/-- The mutable fields of a `PDF` instance. `doc` is the in-memory document
(its pages); `draws` is the drawing log of the currently active page;
`fs` is the scratch/destination filesystem as seen by this instance. -/
structure PDFState where
  doc : List Nat
  nextPageId : Nat
  unit : PDFUnit
  fontSize : ℚ
  orientation : PDFPageOrientationTypes
  pageSize : ℚ × ℚ
  pageFraming : PDFPageFraming
  pageSpacing : PDFPageSpacing
  limits : PDFPageLimits
  fontName : String
  font : PDFFontM
  fontColor : PDFRGBA
  mergeFiles : List Path
  pagesControl : Nat
  pageSelected : Nat
  pageFontSize : ℚ
  pageFontColor : RGB
  draws : List DrawCmd
  fs : FS

/-! ## Color helpers -/

/-- Model of `getColorRGBFromRGBA`: `rgb(color?.r || 0, color?.g || 0, color?.b || 0)`. -/
def getColorRGBFromRGBA (color : Option PDFRGBA) : RGB :=
  match color with
  | none => ⟨0, 0, 0⟩
  | some c => ⟨c.r, c.g, c.b⟩

/-- Model of `getAlfaFromRGBA`: `color?.a || 1` — an absent color, and an alpha of
`0` (falsy), both yield full opacity `1`. -/
def getAlfaFromRGBA (color : Option PDFRGBA) : ℚ :=
  match color with
  | none => 1
  | some c => if c.a = 0 then 1 else c.a

/-! ## Page geometry -/

/-- Model of `normalizePageSpacing`: each margin converted to points with the
document's current unit; absent margins become `0`. -/
def normalizePageSpacing (unit : PDFUnit) (pageSpacing : Option PDFPageSpacingOpt) :
    PDFPageSpacing where
  top := unitNormalizerToPT (some unit) (pageSpacing.bind (·.top))
  bottom := unitNormalizerToPT (some unit) (pageSpacing.bind (·.bottom))
  left := unitNormalizerToPT (some unit) (pageSpacing.bind (·.left))
  right := unitNormalizerToPT (some unit) (pageSpacing.bind (·.right))

/-- Model of `setPageLimits`: inset the framing by the spacing. -/
def computePageLimits (framing : PDFPageFraming) (spacing : PDFPageSpacing) :
    PDFPageLimits where
  startLine := framing.lineStartPosition + spacing.left
  endLine := framing.lineEndPosition - spacing.right
  startColumn := framing.columnEndPosition - spacing.top
  endColumn := framing.columnStartPosition + spacing.bottom

/-- Model of `columnNormalize`: convert the caller's bottom-up vertical coordinate
into the drawing frame. -/
def columnNormalize (st : PDFState) (columnPosition : ℚ) : ℚ :=
  st.limits.startColumn + st.pageSpacing.top - columnPosition

/-- Model of `verifyColumnByLimit`: three checks, each throwing its own error; a
`throw` makes the sequence of `if`s an else-chain. -/
def verifyColumnByLimit (st : PDFState) (columnPosition height : ℚ) : Option PDFError :=
  if columnPosition < st.pageFraming.columnStartPosition + st.pageSpacing.top then
    some (.columnIsOutRange columnPosition (st.pageFraming.columnStartPosition + st.pageSpacing.top))
  else if columnPosition > st.pageFraming.columnEndPosition - st.pageSpacing.bottom then
    some (.columnIsOutRange columnPosition (st.pageFraming.columnEndPosition - st.pageSpacing.bottom))
  else if columnPosition - height < st.pageFraming.columnStartPosition + st.pageSpacing.top then
    some (.columnWithHeightIsOutRange (columnPosition - height)
      (st.pageFraming.columnStartPosition + st.pageSpacing.top))
  else none

/-- Model of `verifyLineByLimit`. -/
def verifyLineByLimit (st : PDFState) (linePosition width : ℚ) : Option PDFError :=
  if linePosition < st.limits.startLine then
    some (.lineIsOutRange linePosition st.limits.startLine)
  else if linePosition > st.limits.endLine then
    some (.lineIsOutRange linePosition st.limits.endLine)
  else if linePosition + width > st.limits.endLine then
    some (.lineWithWidthIsOutRange (linePosition + width) st.limits.endLine)
  else none

/-- Model of `verifyPositionsByLimit` (the source defaults absent `width`/`height`
to `0`; callers here pass them explicitly). Column checks run first. -/
def verifyPositionsByLimit (st : PDFState) (positions : PDFPositions) (width height : ℚ) :
    Option PDFError :=
  match verifyColumnByLimit st positions.columnPosition height with
  | some e => some e
  | none => verifyLineByLimit st positions.linePosition width

/-! ## Position normalization -/

/-- Model of `normalizeLine`: convert both axes with the document's unit, verify
against the limits (no extent), then flip the vertical axis. -/
def normalizeLine (st : PDFState) (positions : PDFPositions) : Except PDFError PDFPositions :=
  match verifyPositionsByLimit st
      ⟨unitNormalizerToPT (some st.unit) (some positions.linePosition),
       unitNormalizerToPT (some st.unit) (some positions.columnPosition)⟩ 0 0 with
  | some e => .error e
  | none => .ok ⟨unitNormalizerToPT (some st.unit) (some positions.linePosition),
      columnNormalize st (unitNormalizerToPT (some st.unit) (some positions.columnPosition))⟩

/-- Model of `normalizePositions` (used for text): convert, resolve the horizontal
alignment with the measured width, then verify — for `center` alignment the
width used for the bounds check is half the full text width. -/
def normalizePositions (st : PDFState) (positions : PDFPositions) (width height : ℚ)
    (align : Option PDFTextAligns) : Except PDFError PDFPositions :=
  match verifyPositionsByLimit st
      ⟨PDFVerticalAlignmentFormatter (some (align.getD .left))
        (unitNormalizerToPT (some st.unit) (some positions.linePosition)) width,
       unitNormalizerToPT (some st.unit) (some positions.columnPosition)⟩
      (if align = some .center then width / 2 else width) height with
  | some e => .error e
  | none => .ok ⟨PDFVerticalAlignmentFormatter (some (align.getD .left))
      (unitNormalizerToPT (some st.unit) (some positions.linePosition)) width,
      unitNormalizerToPT (some st.unit) (some positions.columnPosition)⟩

/-- Model of `PDFText`. -/
structure PDFText where
  value : String
  align : Option PDFTextAligns
  positions : PDFPositions
  textWidth : ℚ
  textHeight : ℚ

/-- Model of `normalizeText`: normalize (and verify) the positions, then flip the
vertical axis. -/
def normalizeText (st : PDFState) (t : PDFText) : Except PDFError PDFText :=
  match normalizePositions st t.positions t.textWidth t.textHeight t.align with
  | .error e => .error e
  | .ok p => .ok { t with positions := ⟨p.linePosition, columnNormalize st p.columnPosition⟩ }

/-! ## Drawing operations -/

/-- Model of `PDFTextOptions` (`src/interfaces/textOptions.ts`). -/
structure PDFTextOptions where
  position : PDFPositions
  align : Option PDFTextAligns := none
  size : Option ℚ := none
  color : Option PDFRGBA := none
  font : Option PDFFontM := none

/-- Model of `PDFLineOptions` (`src/interfaces/lineOptions.ts`); `end` is a Lean
keyword, so the end position is `endPos`. -/
structure PDFLineOptions where
  start : PDFPositions
  endPos : PDFPositions
  thickness : ℚ
  color : Option PDFRGBA := none

/-- Model of `PDFArea`. -/
structure PDFArea where
  width : ℚ
  height : ℚ
  deriving DecidableEq, Repr

/-- Model of `PDFRectangleOptions` (styling pass-throughs omitted, see `DrawCmd`). -/
structure PDFRectangleOptions where
  start : PDFPositions
  area : PDFArea
  areaColor : PDFRGBA
  borderColor : Option PDFRGBA := none
  borderWidth : Option ℚ := none

/-- The size `writeText` resolves (`options?.size || this.fontSize`, used
for the negativity check, both measurements and the draw call). -/
def resolvedFontSize (st : PDFState) (opts : PDFTextOptions) : ℚ :=
  jsOr opts.size st.fontSize

/-- Model of `options?.font?.heightAtSize(sz) || this.font.heightAtSize(sz)`. -/
def measuredTextHeight (st : PDFState) (opts : PDFTextOptions) : ℚ :=
  let sz := resolvedFontSize st opts
  match opts.font with
  | none => st.font.heightAtSize sz
  | some f => if f.heightAtSize sz = 0 then st.font.heightAtSize sz else f.heightAtSize sz

/-- Model of `options?.font?.widthOfTextAtSize(text, sz) || this.font.widthOfTextAtSize(text, sz)`. -/
def measuredTextWidth (st : PDFState) (text : String) (opts : PDFTextOptions) : ℚ :=
  let sz := resolvedFontSize st opts
  match opts.font with
  | none => st.font.widthOfTextAtSize text sz
  | some f =>
    if f.widthOfTextAtSize text sz = 0 then st.font.widthOfTextAtSize text sz
    else f.widthOfTextAtSize text sz

/-- Model of `writeText`: negative-size check, measurement, normalization (which
performs every bounds check), then — only if nothing threw — a single
`drawText`. -/
def writeText (st : PDFState) (text : String) (opts : PDFTextOptions) :
    PDFState × Option PDFError :=
  if resolvedFontSize st opts < 0 then
    (st, some (.negativeNumber "size" (resolvedFontSize st opts)))
  else
    match normalizeText st
      { value := text, align := opts.align, positions := opts.position,
        textWidth := measuredTextWidth st text opts,
        textHeight := measuredTextHeight st opts } with
    | .error e => (st, some e)
    | .ok t =>
      ({ st with draws := st.draws ++ [.text t.value t.positions.linePosition
          t.positions.columnPosition (resolvedFontSize st opts)
          (getColorRGBFromRGBA opts.color) (getAlfaFromRGBA opts.color)] }, none)

/-- Model of `writeLine`: normalize both endpoints, then `drawLine` (which is passed
a color and a thickness but no opacity). -/
def writeLine (st : PDFState) (opts : PDFLineOptions) : PDFState × Option PDFError :=
  match normalizeLine st opts.start with
  | .error e => (st, some e)
  | .ok sp =>
    match normalizeLine st opts.endPos with
    | .error e => (st, some e)
    | .ok ep =>
      ({ st with draws := st.draws ++ [.line sp.linePosition sp.columnPosition
          ep.linePosition ep.columnPosition opts.thickness
          (getColorRGBFromRGBA opts.color)] }, none)

/-- Model of `writeRectangle`: normalize the start (document unit), bounds-check the
far corner (document unit), but convert the drawn extent with the
*millimeter* factor regardless of the document's unit; an area color with
alpha `0` suppresses both the fill color and the opacity argument;
`borderWidth` `0` (or the conversion of an absent value) is passed as
`undefined`. -/
def writeRectangle (st : PDFState) (opts : PDFRectangleOptions) :
    PDFState × Option PDFError :=
  match normalizeLine st opts.start with
  | .error e => (st, some e)
  | .ok sp =>
    match normalizeLine st ⟨opts.start.linePosition + opts.area.width,
        opts.start.columnPosition + opts.area.height⟩ with
    | .error e => (st, some e)
    | .ok _ =>
      ({ st with draws := st.draws ++ [.rectangle sp.linePosition
          (sp.columnPosition - unitNormalizerToPT (some .mm) (some opts.area.height))
          (unitNormalizerToPT (some .mm) (some opts.area.width))
          (unitNormalizerToPT (some .mm) (some opts.area.height))
          (if opts.areaColor.a = 0 then none
           else some (getColorRGBFromRGBA (some opts.areaColor)))
          (if opts.areaColor.a = 0 then none
           else some (getAlfaFromRGBA (some opts.areaColor)))
          (getColorRGBFromRGBA opts.borderColor)
          (getAlfaFromRGBA opts.borderColor)
          (if unitNormalizerToPT (some st.unit) opts.borderWidth = 0 then none
           else some (unitNormalizerToPT (some st.unit) opts.borderWidth))] }, none)

/-! ## Page persistence -/

/-- Model of `savePage(pageNumber?)`: serialize the whole in-memory document to the
scratch slot of `pageNumber` (default: the page counter) and record the
path, appending it only if it is not recorded yet. -/
def savePage (st : PDFState) (pageNumber : Option Nat) : PDFState :=
  let n := pageNumber.getD st.pagesControl
  { st with
    fs := fsWrite st.fs (Path.scratch n) st.doc,
    mergeFiles :=
      if st.mergeFiles.contains (Path.scratch n) then st.mergeFiles
      else st.mergeFiles ++ [Path.scratch n] }

/-- Model of `wasLastPageSaved`: `existsSync(this.mergeFiles[this.pagesControl - 1])`
— `existsSync` of an `undefined` entry returns `false`. -/
def wasLastPageSaved (st : PDFState) : Bool :=
  match st.mergeFiles[st.pagesControl - 1]? with
  | none => false
  | some p => existsFS st.fs p

/-- Model of `saveTheLastPage`: flush the current document to the scratch slot of the
page counter, *without* recording the path, unless the recorded slot of the
counter already exists on disk. -/
def saveTheLastPage (st : PDFState) : PDFState :=
  if wasLastPageSaved st then st
  else { st with fs := fsWrite st.fs (Path.scratch st.pagesControl) st.doc }

/-- Model of `deletePageFile`. -/
def deletePageFile (st : PDFState) (file : Path) : PDFState :=
  { st with fs := fsUnlink st.fs file,
            mergeFiles := st.mergeFiles.filter (fun f => f != file) }

/-! ## Page lifecycle -/

/-- The constructor run by `PDF.create(options)`. The external pieces are
parameters: `fs0` is the initial scratch/source filesystem, `embedF`
resolves a font name to the embedded font object. Page id `0` is the
initial page. -/
def create (fs0 : FS) (embedF : String → PDFFontM) (options : Option PDFCreateOptions) :
    PDFState :=
  let unitV := (options.bind (·.unit)).getD .mm
  let fontSizeV := jsOr (options.bind (·.fontSize)) 7.5
  let base := (PDFGetPageSizeByUnit (options.bind (·.unit)) (options.bind (·.pageSize))).getD
    pageSizesA4
  let fontColorV := (options.bind (·.fontColor)).getD ⟨0, 0, 0, 1⟩
  let orientationV := (options.bind (·.orientation)).getD .portrait
  let pageSizeV := applyOrientation orientationV base
  let framingV : PDFPageFraming := ⟨0, pageSizeV.1, 0, pageSizeV.2⟩
  let spacingV := normalizePageSpacing unitV (options.bind (·.pageSpacing))
  let fontNameV := (options.bind (·.font)).getD "Helvetica"
  { doc := [0], nextPageId := 1, unit := unitV, fontSize := fontSizeV,
    orientation := orientationV, pageSize := pageSizeV, pageFraming := framingV,
    pageSpacing := spacingV, limits := computePageLimits framingV spacingV,
    fontName := fontNameV, font := embedF fontNameV, fontColor := fontColorV,
    mergeFiles := [], pagesControl := 1, pageSelected := 1,
    pageFontSize := jsOr (options.bind (·.fontSize)) fontSizeV,
    pageFontColor := getColorRGBFromRGBA (options.bind (·.fontColor)),
    draws := [], fs := fs0 }

/-- Model of `createPage(pageOptions?)`: start a fresh document holding one fresh
page.  Font name, unit and font size fall back to the previous state; the
page size falls back to `PageSizes.A4` whenever the unit *or* the page size
is omitted; the spacing is renormalized from the supplied options only
(absent margins become `0`); the page's font color falls back to the
instance's `fontColor`, which itself is never reassigned here.
(`getFont(pageOptions?.font || this.externalFontPath || this.fontName)`
resolves to embedding the updated font name; external font files
(`setCustomFont`) are outside the modelled API.) -/
def createPage (embedF : String → PDFFontM) (st : PDFState)
    (pageOptions : Option PDFCreateOptions) : PDFState :=
  let fontNameV := (pageOptions.bind (·.font)).getD st.fontName
  let unitV := (pageOptions.bind (·.unit)).getD st.unit
  let fontSizeV := jsOr (pageOptions.bind (·.fontSize)) st.fontSize
  let base := (PDFGetPageSizeByUnit (pageOptions.bind (·.unit))
    (pageOptions.bind (·.pageSize))).getD pageSizesA4
  let pageSizeV := applyOrientation ((pageOptions.bind (·.orientation)).getD st.orientation) base
  let framingV : PDFPageFraming := ⟨0, pageSizeV.1, 0, pageSizeV.2⟩
  let spacingV := normalizePageSpacing unitV (pageOptions.bind (·.pageSpacing))
  { st with
    doc := [st.nextPageId], nextPageId := st.nextPageId + 1,
    fontName := fontNameV, font := embedF fontNameV, unit := unitV,
    fontSize := fontSizeV, pageSize := pageSizeV, pageFraming := framingV,
    pageSpacing := spacingV, limits := computePageLimits framingV spacingV,
    pageFontSize := fontSizeV,
    pageFontColor := getColorRGBFromRGBA (some ((pageOptions.bind (·.fontColor)).getD st.fontColor)),
    draws := [] }

/-- Model of `addPage`: flush the current page, start a fresh document, create the
next page, bump the page counter and the selected-page pointer. -/
def addPage (embedF : String → PDFFontM) (st : PDFState)
    (pageOptions : Option PDFCreateOptions) : PDFState :=
  let st1 := savePage st none
  let st2 := createPage embedF { st1 with doc := [] } pageOptions
  { st2 with pagesControl := st2.pagesControl + 1, pageSelected := st2.pageSelected + 1 }

/-- Model of `selectPage(n)`: a no-op when `n` is already selected; otherwise look
up the scratch record (failure throws before any mutation), flush the
current page, persist it under its own slot, and load the requested page
into a fresh document. -/
def selectPage (st : PDFState) (pageNumber : Nat) : PDFState × Option PDFError :=
  if pageNumber = st.pageSelected then (st, none)
  else
    match st.mergeFiles[pageNumber - 1]? with
    | none => (st, some (.pageDoesNotExist pageNumber))
    | some pageFile =>
      let st1 := savePage (saveTheLastPage st) (some st.pageSelected)
      let st2 := { st1 with doc := [] }
      match fsRead st2.fs pageFile with
      | none => (st2, some (.ioError pageFile))
      | some content =>
        match content.head? with
        | none => (st2, some (.ioError pageFile))
        | some pg =>
          ({ st2 with doc := [pg], pageSelected := pageNumber, draws := [] }, none)

/-- Model of `clearPage`: flush, remove the in-memory page (index `0`), re-add a
blank page of the current size. -/
def clearPage (st : PDFState) : PDFState :=
  let st1 := saveTheLastPage st
  { st1 with doc := st1.doc.tail ++ [st1.nextPageId],
             nextPageId := st1.nextPageId + 1, draws := [] }

/-- Model of `removePage(n)`: record lookup (failure throws before any mutation),
then delete the scratch file, drop the document page and decrement the
counter. -/
def removePage (st : PDFState) (pageNumber : Nat) : PDFState × Option PDFError :=
  match st.mergeFiles[pageNumber - 1]? with
  | none => (st, some (.pageDoesNotExist pageNumber))
  | some file =>
    let st1 := deletePageFile st file
    ({ st1 with doc := st1.doc.eraseIdx (pageNumber - 1),
                pagesControl := st1.pagesControl - 1 }, none)

/-- The copy loop shared by `loadPDF` and `mergePDF`: each copied page is
*added to the same in-memory document* (which therefore accumulates the
source's pages), the counter is bumped, and the whole document is
serialized to the counter's scratch slot. -/
def copyPagesLoop (st : PDFState) (pages : List Nat) : PDFState :=
  match pages with
  | [] => st
  | pg :: rest =>
    let st1 := { st with doc := st.doc ++ [pg], pagesControl := st.pagesControl + 1 }
    copyPagesLoop (savePage st1 none) rest

/-- Model of `loadPDF(path)`: existence check first, then flush the current page,
start a fresh document and run the copy loop over the source's pages. -/
def loadPDF (st : PDFState) (pdfFilePath : Path) : PDFState × Option PDFError :=
  if !(existsFS st.fs pdfFilePath) then (st, some (.filePathDoesNotExist pdfFilePath))
  else
    let st1 := { savePage st none with doc := [] }
    match fsRead st1.fs pdfFilePath with
    | none => (st1, some (.ioError pdfFilePath))
    | some pages => (copyPagesLoop st1 pages, none)

/-- The per-file loop of `mergePDF`: the existence check of each path runs
only when the loop reaches it. -/
def mergeFilesLoop (st : PDFState) (files : List Path) : PDFState × Option PDFError :=
  match files with
  | [] => (st, none)
  | f :: rest =>
    if !(existsFS st.fs f) then (st, some (.filePathDoesNotExist f))
    else
      let st1 := { st with doc := [] }
      match fsRead st1.fs f with
      | none => (st1, some (.ioError f))
      | some pages => mergeFilesLoop (copyPagesLoop st1 pages) rest

/-- Model of `mergePDF(paths)`: the empty-list check runs before any mutation, but
the current page is flushed (`savePage`, which can grow the record) before
the first path is even looked at. -/
def mergePDF (st : PDFState) (pdfFilesPath : List Path) : PDFState × Option PDFError :=
  if pdfFilesPath.isEmpty then (st, some .pdfFilesPathEmpty)
  else mergeFilesLoop (savePage st none) pdfFilesPath

/-! ## Final assembly -/

/-- The assembly loop of `mergeGroupOfPDF`: for every recorded scratch file,
load it and add its *first* page (`pages[0]`) to the destination document;
an empty scratch file makes `addPage(undefined)` create a fresh default
page. -/
def assembleLoop (st : PDFState) (files : List Path) : PDFState × Option PDFError :=
  match files with
  | [] => (st, none)
  | f :: rest =>
    match fsRead st.fs f with
    | none => (st, some (.ioError f))
    | some pages =>
      match pages.head? with
      | some pg => assembleLoop { st with doc := st.doc ++ [pg] } rest
      | none => assembleLoop { st with doc := st.doc ++ [st.nextPageId],
                                       nextPageId := st.nextPageId + 1 } rest

/-- The deletion loop of `mergeGroupOfPDF`: unlink every recorded file that
still exists. -/
def unlinkExisting (fs : FS) (files : List Path) : FS :=
  match files with
  | [] => fs
  | f :: rest => unlinkExisting (if existsFS fs f then fsUnlink fs f else fs) rest

/-- Model of `mergeGroupOfPDF(filePath)`: nothing-to-save check; single-page shortcut
(empty record, nonzero counter) writing the active document directly;
otherwise flush, re-serialize the counter's slot and record it, assemble a
clean destination document from the record in order, write it, and only
then delete the scratch files and clear the record. -/
def mergeGroupOfPDF (st : PDFState) (filePath : Path) : PDFState × Option PDFError :=
  if st.mergeFiles.isEmpty && st.pagesControl == 0 then
    (st, some .pagesForMergeDoesNotExist)
  else if st.mergeFiles.isEmpty then
    ({ st with fs := fsWrite st.fs filePath st.doc }, none)
  else
    let st1 := saveTheLastPage st
    let st2 := { st1 with fs := fsWrite st1.fs (Path.scratch st1.pagesControl) st1.doc }
    let st3 := { st2 with mergeFiles :=
      if st2.mergeFiles.contains (Path.scratch st2.pagesControl) then st2.mergeFiles
      else st2.mergeFiles ++ [Path.scratch st2.pagesControl] }
    let st4 := { st3 with doc := [] }
    match assembleLoop st4 st4.mergeFiles with
    | (st5, some e) => (st5, some e)
    | (st5, none) =>
      let st6 := { st5 with fs := fsWrite st5.fs filePath st5.doc }
      ({ st6 with fs := unlinkExisting st6.fs st6.mergeFiles, mergeFiles := [] }, none)

/-- Model of `save(filePath)`: flush the last page, then assemble. -/
def save (st : PDFState) (filePath : Path) : PDFState × Option PDFError :=
  mergeGroupOfPDF (saveTheLastPage st) filePath

/-- Model of `getNumberOfPages`. -/
def getNumberOfPages (st : PDFState) : Nat :=
  st.pagesControl

/-! ## Concrete instances used by the witnesses and counterexamples -/

/-- A concrete embedded font: height equals the size, width is the size
times the number of characters (any concrete measurement works — no claim
depends on actual font metrics). -/
def font0 : PDFFontM where
  heightAtSize := fun s => s
  widthOfTextAtSize := fun t s => s * (t.length : ℚ)

/-- A concrete font-embedding environment. -/
def embedF0 : String → PDFFontM := fun _ => font0

/-! ## Facts about rounding -/

theorem abs_round2_sub_le (x : ℚ) : |round2 x - x| ≤ 1 / 200 := by
  have h1 : (Int.floor (x * 100 + 1 / 2) : ℚ) ≤ x * 100 + 1 / 2 := Int.floor_le _
  have h2 : x * 100 + 1 / 2 < (Int.floor (x * 100 + 1 / 2) : ℚ) + 1 := Int.lt_floor_add_one _
  rw [round2, abs_le]
  constructor <;> linarith

theorem round2_eq_self_of_int (x : ℚ) (k : ℤ) (h : x * 100 = (k : ℚ)) : round2 x = x := by
  rw [round2, h, show (k : ℚ) + 1 / 2 = 1 / 2 + (k : ℚ) by ring, Int.floor_add_int,
    show Int.floor ((1 : ℚ) / 2) = 0 by norm_num]
  push_cast
  linarith

/-- The generic estimate behind the round-trip property: if `p` is within
`d` of `v * f` and `g * f` is within `c` of `1`, then `round2 (p * g)` is
within `1/200 + g*d + 100*c` of `v` for `0 ≤ v ≤ 100`. -/
theorem roundtrip_est (v f g d c p : ℚ) (hp : |p - v * f| ≤ d)
    (hgf : |g * f - 1| ≤ c) (hg : 0 ≤ g) (hv : 0 ≤ v) (hv100 : v ≤ 100)
    (htot : 1 / 200 + g * d + c * 100 ≤ 1 / 100) :
    |round2 (p * g) - v| ≤ 1 / 100 := by
  have h2 := abs_round2_sub_le (p * g)
  have key : |p * g - v| ≤ g * d + c * 100 := by
    have hsplit : p * g - v = g * (p - v * f) + (g * f - 1) * v := by ring
    rw [hsplit]
    have habs : |g * (p - v * f) + (g * f - 1) * v| ≤ g * |p - v * f| + |g * f - 1| * |v| := by
      calc |g * (p - v * f) + (g * f - 1) * v|
          ≤ |g * (p - v * f)| + |(g * f - 1) * v| := abs_add _ _
        _ = g * |p - v * f| + |g * f - 1| * |v| := by rw [abs_mul, abs_mul, abs_of_nonneg hg]
    have hva : |v| = v := abs_of_nonneg hv
    have hb1 : g * |p - v * f| ≤ g * d := by
      exact mul_le_mul_of_nonneg_left hp hg
    have hb2 : |g * f - 1| * |v| ≤ c * 100 := by
      rw [hva]
      exact mul_le_mul hgf hv100 hv (le_trans (abs_nonneg _) hgf)
    linarith
  have h3 := abs_sub_le (round2 (p * g)) (p * g) v
  rw [abs_le] at h2 key ⊢
  constructor <;> linarith [h3, abs_nonneg (round2 (p * g) - v)]

/-! ## Claims about the unit converter -/

/-- C6 counterexample: the claim says every result is rounded to two
decimal places, `pt` having factor `1`; but the `pt` branch returns the
value unchanged, so a three-decimal input refutes it. -/
theorem toPoints_claim_counterexample :
    unitNormalizerToPT (some .pt) (some 1.234) ≠ round2 (1.234 * 1) := by
  rw [show unitNormalizerToPT (some .pt) (some 1.234) =
    (if (1.234 : ℚ) = 0 then 0 else (1.234 : ℚ)) from rfl]
  norm_num [round2]

/-- C6 (amended): `toPoints` maps an absent or zero value to `0`; returns
the value unchanged — without rounding — for `pt` and for an absent
(unrecognized) unit; and for every other recognized unit multiplies by the
per-unit factor and rounds the product to two decimal places. -/
theorem toPoints_amended (u : Option PDFUnit) (v : ℚ) :
    unitNormalizerToPT u none = 0 ∧
    unitNormalizerToPT u (some 0) = 0 ∧
    unitNormalizerToPT none (some v) = v ∧
    unitNormalizerToPT (some .pt) (some v) = v ∧
    unitNormalizerToPT (some .px) (some v) = round2 (v * 0.75) ∧
    unitNormalizerToPT (some .inch) (some v) = round2 (v * 72) ∧
    unitNormalizerToPT (some .cm) (some v) = round2 (v * 28.3465) ∧
    unitNormalizerToPT (some .em) (some v) = round2 (v * 0.0836) ∧
    unitNormalizerToPT (some .mm) (some v) = round2 (v * 2.83465) ∧
    unitNormalizerToPT (some .ex) (some v) = round2 (v * 4.30554) ∧
    unitNormalizerToPT (some .pc) (some v) = round2 (v * 12) := by
  have h0 : round2 (0 : ℚ) = 0 := by
    rw [round2]
    norm_num
  by_cases hv : v = 0
  · subst hv
    refine ⟨rfl, ?_, ?_, ?_, ?_, ?_, ?_, ?_, ?_, ?_, ?_⟩ <;>
      simp [unitNormalizerToPT, h0]
  · refine ⟨rfl, ?_, ?_, ?_, ?_, ?_, ?_, ?_, ?_, ?_, ?_⟩ <;>
      simp [unitNormalizerToPT, hv]

/-- C7 counterexample: the claim asserts the round-trip for *every* unit
other than `em` and every positive value; for `ex` at value `100` the
inverse factor `0.23255` (the true inverse of `4.30554` is `0.23225...`)
drifts the result to `100.12`. -/
theorem unit_roundtrip_counterexample :
    ¬ (|unitNormalizerFromPT (some .ex)
          (some (unitNormalizerToPT (some .ex) (some (100 : ℚ)))) - 100| ≤ 1 / 100) := by
  have h1 : unitNormalizerToPT (some .ex) (some (100 : ℚ)) = 430.55 := by
    rw [show unitNormalizerToPT (some .ex) (some (100 : ℚ)) =
      (if (100 : ℚ) = 0 then 0 else round2 (100 * (4.30554 : ℚ))) from rfl]
    norm_num [round2]
  rw [h1]
  have h2 : unitNormalizerFromPT (some .ex) (some (430.55 : ℚ)) = 100.12 := by
    rw [show unitNormalizerFromPT (some .ex) (some (430.55 : ℚ)) =
      (if (430.55 : ℚ) = 0 then 0 else round2 (430.55 * (0.23255 : ℚ))) from rfl]
    norm_num [round2]
  rw [h2, show (100.12 : ℚ) - 100 = 0.12 from by norm_num, abs_of_nonneg (by norm_num)]
  norm_num

/-- C7 (amended): the two-decimal round-trip within `0.01` holds for the
units `pt`, `px`, `in`, `cm`, `mm`, `pc` for positive integer values up to
`100`; it fails for `ex` (inaccurate inverse factor) and, for large enough
values, for every unit except `pt` (truncated inverse factors), hence the
bound. -/
theorem unit_roundtrip_amended (u : PDFUnit) (hem : u ≠ .em) (hex : u ≠ .ex)
    (n : ℕ) (h1 : 1 ≤ n) (h2 : n ≤ 100) :
    |unitNormalizerFromPT (some u)
      (some (unitNormalizerToPT (some u) (some (n : ℚ)))) - (n : ℚ)| ≤ 1 / 100 := by
  have hn0 : ((n : ℚ)) ≠ 0 := Nat.cast_ne_zero.mpr (by omega)
  have hn1 : (1 : ℚ) ≤ (n : ℚ) := by exact_mod_cast h1
  have hn100 : ((n : ℚ)) ≤ 100 := by exact_mod_cast h2
  have hv : (0 : ℚ) ≤ (n : ℚ) := by linarith
  cases u with
  | em => exact absurd rfl hem
  | ex => exact absurd rfl hex
  | pt =>
    rw [show unitNormalizerToPT (some .pt) (some (n : ℚ)) =
      (if (n : ℚ) = 0 then 0 else (n : ℚ)) from rfl, if_neg hn0]
    rw [show unitNormalizerFromPT (some .pt) (some (n : ℚ)) =
      (if (n : ℚ) = 0 then 0 else (n : ℚ)) from rfl, if_neg hn0]
    simp
  | px =>
    rw [show unitNormalizerToPT (some .px) (some (n : ℚ)) =
      (if (n : ℚ) = 0 then 0 else round2 ((n : ℚ) * (0.75 : ℚ))) from rfl, if_neg hn0]
    have hex75 : round2 ((n : ℚ) * (0.75 : ℚ)) = (n : ℚ) * (0.75 : ℚ) :=
      round2_eq_self_of_int _ ((75 * n : ℕ) : ℤ) (by push_cast; ring)
    rw [hex75]
    have hpne : ((n : ℚ) * (0.75 : ℚ)) ≠ 0 := by positivity
    rw [show unitNormalizerFromPT (some .px) (some ((n : ℚ) * (0.75 : ℚ))) =
      (if ((n : ℚ) * (0.75 : ℚ)) = 0 then 0
       else round2 (((n : ℚ) * (0.75 : ℚ)) * (1.3333333333333333 : ℚ))) from rfl,
      if_neg hpne]
    refine roundtrip_est (n : ℚ) 0.75 1.3333333333333333 0 (25 / 10 ^ 18) _
      (by simp) ?_ (by norm_num) hv hn100 (by norm_num)
    rw [show (1.3333333333333333 : ℚ) * 0.75 - 1 = -(25 / 10 ^ 18) from by norm_num,
      abs_neg, abs_of_nonneg (by norm_num)]
  | inch =>
    rw [show unitNormalizerToPT (some .inch) (some (n : ℚ)) =
      (if (n : ℚ) = 0 then 0 else round2 ((n : ℚ) * (72 : ℚ))) from rfl, if_neg hn0]
    have hex72 : round2 ((n : ℚ) * (72 : ℚ)) = (n : ℚ) * (72 : ℚ) :=
      round2_eq_self_of_int _ ((7200 * n : ℕ) : ℤ) (by push_cast; ring)
    rw [hex72]
    have hpne : ((n : ℚ) * (72 : ℚ)) ≠ 0 := by positivity
    rw [show unitNormalizerFromPT (some .inch) (some ((n : ℚ) * (72 : ℚ))) =
      (if ((n : ℚ) * (72 : ℚ)) = 0 then 0
       else round2 (((n : ℚ) * (72 : ℚ)) * (0.013888888888888888 : ℚ))) from rfl,
      if_neg hpne]
    refine roundtrip_est (n : ℚ) 72 0.013888888888888888 0 (64 / 10 ^ 18) _
      (by simp) ?_ (by norm_num) hv hn100 (by norm_num)
    rw [show (0.013888888888888888 : ℚ) * 72 - 1 = -(64 / 10 ^ 18) from by norm_num,
      abs_neg, abs_of_nonneg (by norm_num)]
  | cm =>
    rw [show unitNormalizerToPT (some .cm) (some (n : ℚ)) =
      (if (n : ℚ) = 0 then 0 else round2 ((n : ℚ) * (28.3465 : ℚ))) from rfl, if_neg hn0]
    have hp := abs_round2_sub_le ((n : ℚ) * (28.3465 : ℚ))
    have hppos : 0 < round2 ((n : ℚ) * (28.3465 : ℚ)) := by
      have hlow := (abs_le.mp hp).1
      nlinarith [hn1]
    rw [show unitNormalizerFromPT (some .cm) (some (round2 ((n : ℚ) * (28.3465 : ℚ)))) =
      (if round2 ((n : ℚ) * (28.3465 : ℚ)) = 0 then 0
       else round2 (round2 ((n : ℚ) * (28.3465 : ℚ)) * (0.0352778 : ℚ))) from rfl,
      if_neg hppos.ne']
    refine roundtrip_est (n : ℚ) 28.3465 0.0352778 (1 / 200) (21577 / 10 ^ 10) _
      hp ?_ (by norm_num) hv hn100 (by norm_num)
    rw [show (0.0352778 : ℚ) * 28.3465 - 1 = 21577 / 10 ^ 10 from by norm_num,
      abs_of_nonneg (by norm_num)]
  | mm =>
    rw [show unitNormalizerToPT (some .mm) (some (n : ℚ)) =
      (if (n : ℚ) = 0 then 0 else round2 ((n : ℚ) * (2.83465 : ℚ))) from rfl, if_neg hn0]
    have hp := abs_round2_sub_le ((n : ℚ) * (2.83465 : ℚ))
    have hppos : 0 < round2 ((n : ℚ) * (2.83465 : ℚ)) := by
      have hlow := (abs_le.mp hp).1
      nlinarith [hn1]
    rw [show unitNormalizerFromPT (some .mm) (some (round2 ((n : ℚ) * (2.83465 : ℚ)))) =
      (if round2 ((n : ℚ) * (2.83465 : ℚ)) = 0 then 0
       else round2 (round2 ((n : ℚ) * (2.83465 : ℚ)) * (0.352778 : ℚ))) from rfl,
      if_neg hppos.ne']
    refine roundtrip_est (n : ℚ) 2.83465 0.352778 (1 / 200) (21577 / 10 ^ 10) _
      hp ?_ (by norm_num) hv hn100 (by norm_num)
    rw [show (0.352778 : ℚ) * 2.83465 - 1 = 21577 / 10 ^ 10 from by norm_num,
      abs_of_nonneg (by norm_num)]
  | pc =>
    rw [show unitNormalizerToPT (some .pc) (some (n : ℚ)) =
      (if (n : ℚ) = 0 then 0 else round2 ((n : ℚ) * (12 : ℚ))) from rfl, if_neg hn0]
    have hex12 : round2 ((n : ℚ) * (12 : ℚ)) = (n : ℚ) * (12 : ℚ) :=
      round2_eq_self_of_int _ ((1200 * n : ℕ) : ℤ) (by push_cast; ring)
    rw [hex12]
    have hpne : ((n : ℚ) * (12 : ℚ)) ≠ 0 := by positivity
    rw [show unitNormalizerFromPT (some .pc) (some ((n : ℚ) * (12 : ℚ))) =
      (if ((n : ℚ) * (12 : ℚ)) = 0 then 0
       else round2 (((n : ℚ) * (12 : ℚ)) * (0.08333 : ℚ))) from rfl,
      if_neg hpne]
    refine roundtrip_est (n : ℚ) 12 0.08333 0 (4 / 10 ^ 5) _
      (by simp) ?_ (by norm_num) hv hn100 (by norm_num)
    rw [show (0.08333 : ℚ) * 12 - 1 = -(4 / 10 ^ 5) from by norm_num,
      abs_neg, abs_of_nonneg (by norm_num)]

/-- C7 witness: the amended round-trip at `mm`, value `50`. -/
theorem unit_roundtrip_amended_witness :
    PDFUnit.mm ≠ PDFUnit.em ∧ PDFUnit.mm ≠ PDFUnit.ex ∧ 1 ≤ 50 ∧ 50 ≤ 100 ∧
    |unitNormalizerFromPT (some .mm)
      (some (unitNormalizerToPT (some .mm) (some ((50 : ℕ) : ℚ)))) - ((50 : ℕ) : ℚ)| ≤ 1 / 100 :=
  ⟨by decide, by decide, by norm_num, by norm_num,
   unit_roundtrip_amended .mm (by decide) (by decide) 50 (by norm_num) (by norm_num)⟩

/-! ## Claim about the alignment resolver -/

/-- C8: the canonical alignment resolver returns the anchor unchanged for
`left` (and for an unspecified alignment), subtracts the whole extent for
`right`, and half the extent for `center`. -/
theorem alignment_resolver_contract (p w : ℚ) :
    PDFVerticalAlignmentFormatter (some .left) p w = p ∧
    PDFVerticalAlignmentFormatter (some .right) p w = p - w ∧
    PDFVerticalAlignmentFormatter (some .center) p w = p - w / 2 ∧
    PDFVerticalAlignmentFormatter none p w = p :=
  ⟨rfl, rfl, rfl, rfl⟩

/-! ## Characterizing the bounds checks -/

theorem verifyColumnByLimit_eq_none_iff (st : PDFState) (c h : ℚ) :
    verifyColumnByLimit st c h = none ↔
      (st.pageFraming.columnStartPosition + st.pageSpacing.top ≤ c ∧
       c ≤ st.pageFraming.columnEndPosition - st.pageSpacing.bottom ∧
       st.pageFraming.columnStartPosition + st.pageSpacing.top ≤ c - h) := by
  unfold verifyColumnByLimit
  split_ifs with hc1 hc2 hc3
  · exact iff_of_false (by simp) (fun hh => absurd hc1 (not_lt.mpr hh.1))
  · exact iff_of_false (by simp) (fun hh => absurd hc2 (not_lt.mpr hh.2.1))
  · exact iff_of_false (by simp) (fun hh => absurd hc3 (not_lt.mpr hh.2.2))
  · exact iff_of_true rfl ⟨not_lt.mp hc1, not_lt.mp hc2, not_lt.mp hc3⟩

theorem verifyLineByLimit_eq_none_iff (st : PDFState) (l w : ℚ) :
    verifyLineByLimit st l w = none ↔
      (st.limits.startLine ≤ l ∧ l ≤ st.limits.endLine ∧
       l + w ≤ st.limits.endLine) := by
  unfold verifyLineByLimit
  split_ifs with hl1 hl2 hl3
  · exact iff_of_false (by simp) (fun hh => absurd hl1 (not_lt.mpr hh.1))
  · exact iff_of_false (by simp) (fun hh => absurd hl2 (not_lt.mpr hh.2.1))
  · exact iff_of_false (by simp) (fun hh => absurd hl3 (not_lt.mpr hh.2.2))
  · exact iff_of_true rfl ⟨not_lt.mp hl1, not_lt.mp hl2, not_lt.mp hl3⟩

theorem verifyColumnByLimit_some_outOfRange (st : PDFState) (c h : ℚ) (e : PDFError)
    (he : verifyColumnByLimit st c h = some e) : outOfRangePDFError e = true := by
  unfold verifyColumnByLimit at he
  split_ifs at he
  all_goals (injection he with h2; rw [← h2]; rfl)

theorem verifyLineByLimit_some_outOfRange (st : PDFState) (l w : ℚ) (e : PDFError)
    (he : verifyLineByLimit st l w = some e) : outOfRangePDFError e = true := by
  unfold verifyLineByLimit at he
  split_ifs at he
  all_goals (injection he with h2; rw [← h2]; rfl)

theorem verifyPositionsByLimit_eq_none_iff (st : PDFState) (p : PDFPositions) (w h : ℚ) :
    verifyPositionsByLimit st p w h = none ↔
      (verifyColumnByLimit st p.columnPosition h = none ∧
       verifyLineByLimit st p.linePosition w = none) := by
  unfold verifyPositionsByLimit
  cases hvc : verifyColumnByLimit st p.columnPosition h <;> simp [hvc]

theorem verifyPositionsByLimit_some_outOfRange (st : PDFState) (p : PDFPositions)
    (w h : ℚ) (e : PDFError) (he : verifyPositionsByLimit st p w h = some e) :
    outOfRangePDFError e = true := by
  unfold verifyPositionsByLimit at he
  cases hvc : verifyColumnByLimit st p.columnPosition h with
  | some e2 =>
    rw [hvc] at he
    cases he
    exact verifyColumnByLimit_some_outOfRange st p.columnPosition h _ hvc
  | none =>
    rw [hvc] at he
    exact verifyLineByLimit_some_outOfRange st p.linePosition w e he

/-! ## Characterizing `normalizePositions`, `normalizeLine` and `writeText` -/

/-- The horizontal position `normalizePositions` checks and draws: the
converted anchor, adjusted by the alignment resolver with the full
measured width. -/
def alignedLinePosition (st : PDFState) (text : String) (opts : PDFTextOptions) : ℚ :=
  PDFVerticalAlignmentFormatter (some (opts.align.getD .left))
    (unitNormalizerToPT (some st.unit) (some opts.position.linePosition))
    (measuredTextWidth st text opts)

theorem normalizePositions_ok_elim (st : PDFState) (pos : PDFPositions) (w h : ℚ)
    (align : Option PDFTextAligns) (p : PDFPositions)
    (hp : normalizePositions st pos w h align = .ok p) :
    p = ⟨PDFVerticalAlignmentFormatter (some (align.getD .left))
          (unitNormalizerToPT (some st.unit) (some pos.linePosition)) w,
         unitNormalizerToPT (some st.unit) (some pos.columnPosition)⟩ ∧
    verifyPositionsByLimit st p (if align = some .center then w / 2 else w) h = none := by
  unfold normalizePositions at hp
  cases hv : verifyPositionsByLimit st
      ⟨PDFVerticalAlignmentFormatter (some (align.getD .left))
        (unitNormalizerToPT (some st.unit) (some pos.linePosition)) w,
       unitNormalizerToPT (some st.unit) (some pos.columnPosition)⟩
      (if align = some .center then w / 2 else w) h with
  | some e => rw [hv] at hp; cases hp
  | none =>
    rw [hv] at hp
    cases hp
    exact ⟨rfl, hv⟩

theorem normalizePositions_error_elim (st : PDFState) (pos : PDFPositions) (w h : ℚ)
    (align : Option PDFTextAligns) (e : PDFError)
    (hp : normalizePositions st pos w h align = .error e) :
    verifyPositionsByLimit st
      ⟨PDFVerticalAlignmentFormatter (some (align.getD .left))
        (unitNormalizerToPT (some st.unit) (some pos.linePosition)) w,
       unitNormalizerToPT (some st.unit) (some pos.columnPosition)⟩
      (if align = some .center then w / 2 else w) h = some e := by
  unfold normalizePositions at hp
  cases hv : verifyPositionsByLimit st
      ⟨PDFVerticalAlignmentFormatter (some (align.getD .left))
        (unitNormalizerToPT (some st.unit) (some pos.linePosition)) w,
       unitNormalizerToPT (some st.unit) (some pos.columnPosition)⟩
      (if align = some .center then w / 2 else w) h with
  | some e2 => rw [hv] at hp; cases hp; rfl
  | none => rw [hv] at hp; cases hp

theorem normalizeLine_ok_elim (st : PDFState) (pos : PDFPositions) (p : PDFPositions)
    (hp : normalizeLine st pos = .ok p) :
    p = ⟨unitNormalizerToPT (some st.unit) (some pos.linePosition),
         columnNormalize st (unitNormalizerToPT (some st.unit) (some pos.columnPosition))⟩ := by
  unfold normalizeLine at hp
  cases hv : verifyPositionsByLimit st
      ⟨unitNormalizerToPT (some st.unit) (some pos.linePosition),
       unitNormalizerToPT (some st.unit) (some pos.columnPosition)⟩ 0 0 with
  | some e => rw [hv] at hp; cases hp
  | none => rw [hv] at hp; cases hp; rfl

theorem writeText_of_error (st : PDFState) (text : String) (opts : PDFTextOptions)
    (hsz : 0 ≤ resolvedFontSize st opts) (e : PDFError)
    (h : normalizePositions st opts.position (measuredTextWidth st text opts)
      (measuredTextHeight st opts) opts.align = .error e) :
    writeText st text opts = (st, some e) := by
  unfold writeText normalizeText
  rw [if_neg (not_lt.mpr hsz)]
  simp only [h]

theorem writeText_of_ok (st : PDFState) (text : String) (opts : PDFTextOptions)
    (hsz : 0 ≤ resolvedFontSize st opts) (p : PDFPositions)
    (h : normalizePositions st opts.position (measuredTextWidth st text opts)
      (measuredTextHeight st opts) opts.align = .ok p) :
    writeText st text opts = ({ st with draws := st.draws ++ [.text text p.linePosition
      (columnNormalize st p.columnPosition) (resolvedFontSize st opts)
      (getColorRGBFromRGBA opts.color) (getAlfaFromRGBA opts.color)] }, none) := by
  unfold writeText normalizeText
  rw [if_neg (not_lt.mpr hsz)]
  simp only [h]

theorem textVerify_none_iff (st : PDFState) (lp c wAl h : ℚ) :
    verifyPositionsByLimit st ⟨lp, c⟩ wAl h = none ↔
      (st.pageFraming.columnStartPosition + st.pageSpacing.top ≤ c ∧
       c ≤ st.pageFraming.columnEndPosition - st.pageSpacing.bottom ∧
       st.pageFraming.columnStartPosition + st.pageSpacing.top ≤ c - h ∧
       st.limits.startLine ≤ lp ∧ lp ≤ st.limits.endLine ∧
       lp + wAl ≤ st.limits.endLine) := by
  rw [verifyPositionsByLimit_eq_none_iff,
    show (⟨lp, c⟩ : PDFPositions).columnPosition = c from rfl,
    show (⟨lp, c⟩ : PDFPositions).linePosition = lp from rfl,
    verifyColumnByLimit_eq_none_iff, verifyLineByLimit_eq_none_iff]
  tauto

/-! ## Claim C2: all bounds checks run before drawing -/

/-- C2: assuming the resolved font size is non-negative, a `writeText` call
succeeds exactly when all six bounds checks pass — the vertical position
against the top and bottom margin boundaries, the vertical position minus
the content height against the top boundary, the aligned horizontal
position against the left and right limits, and the aligned horizontal
position plus the checked content width (half the measured text width for
`center` alignment, the full width for `left`/`right`) against the right
limit; and whenever it fails, the error is one of the four out-of-range
kinds and the state — in particular the page's drawing log — is exactly
unchanged, so nothing at all is drawn. -/
theorem writeText_checks_before_draw (st : PDFState) (text : String) (opts : PDFTextOptions)
    (hsz : 0 ≤ resolvedFontSize st opts) :
    ((writeText st text opts).2 = none ↔
      (st.pageFraming.columnStartPosition + st.pageSpacing.top ≤
          unitNormalizerToPT (some st.unit) (some opts.position.columnPosition) ∧
       unitNormalizerToPT (some st.unit) (some opts.position.columnPosition) ≤
          st.pageFraming.columnEndPosition - st.pageSpacing.bottom ∧
       st.pageFraming.columnStartPosition + st.pageSpacing.top ≤
          unitNormalizerToPT (some st.unit) (some opts.position.columnPosition) -
            measuredTextHeight st opts ∧
       st.limits.startLine ≤ alignedLinePosition st text opts ∧
       alignedLinePosition st text opts ≤ st.limits.endLine ∧
       alignedLinePosition st text opts +
          (if opts.align = some .center then measuredTextWidth st text opts / 2
           else measuredTextWidth st text opts) ≤ st.limits.endLine)) ∧
    (∀ e, (writeText st text opts).2 = some e →
       (writeText st text opts).1 = st ∧ outOfRangePDFError e = true) := by
  have hiff := textVerify_none_iff st (alignedLinePosition st text opts)
      (unitNormalizerToPT (some st.unit) (some opts.position.columnPosition))
      (if opts.align = some .center then measuredTextWidth st text opts / 2
       else measuredTextWidth st text opts)
      (measuredTextHeight st opts)
  cases hnp : normalizePositions st opts.position (measuredTextWidth st text opts)
      (measuredTextHeight st opts) opts.align with
  | ok p =>
    obtain ⟨hpeq, hver⟩ := normalizePositions_ok_elim _ _ _ _ _ _ hnp
    rw [writeText_of_ok st text opts hsz p hnp]
    subst hpeq
    refine ⟨⟨fun _ => hiff.mp hver, fun _ => rfl⟩, fun e he => Option.noConfusion he⟩
  | error e =>
    have hver := normalizePositions_error_elim _ _ _ _ _ _ hnp
    rw [writeText_of_error st text opts hsz e hnp]
    refine ⟨⟨fun hh => absurd hh (by simp), fun hcond =>
      absurd (hver.symm.trans (hiff.mpr hcond)) (by simp)⟩, ?_⟩
    intro e2 he2
    have he3 : (some e : Option PDFError) = some e2 := he2
    injection he3 with he4
    subst he4
    exact ⟨rfl, verifyPositionsByLimit_some_outOfRange _ _ _ _ _ hver⟩

/-! ## Claim C9: writeRectangle mixes unit scales -/

/-- C9: a successful `writeRectangle` draws a rectangle whose width and
height are the area converted with the *millimeter* factor regardless of
the configured unit, while its start position (both axes) is converted with
the configured unit. -/
theorem writeRectangle_unit_mix (st : PDFState) (opts : PDFRectangleOptions) (st2 : PDFState)
    (hok : writeRectangle st opts = (st2, none)) :
    ∃ c o bc bo bw, st2.draws = st.draws ++
      [DrawCmd.rectangle
        (unitNormalizerToPT (some st.unit) (some opts.start.linePosition))
        (columnNormalize st (unitNormalizerToPT (some st.unit) (some opts.start.columnPosition)) -
          unitNormalizerToPT (some .mm) (some opts.area.height))
        (unitNormalizerToPT (some .mm) (some opts.area.width))
        (unitNormalizerToPT (some .mm) (some opts.area.height)) c o bc bo bw] := by
  unfold writeRectangle at hok
  cases h1 : normalizeLine st opts.start with
  | error e =>
    rw [h1] at hok
    injection hok with _ hb
    exact Option.noConfusion hb
  | ok sp =>
    rw [h1] at hok
    cases h2 : normalizeLine st ⟨opts.start.linePosition + opts.area.width,
        opts.start.columnPosition + opts.area.height⟩ with
    | error e =>
      rw [h2] at hok
      injection hok with _ hb
      exact Option.noConfusion hb
    | ok q =>
      rw [h2] at hok
      injection hok with ha _
      have hsp := normalizeLine_ok_elim st opts.start sp h1
      subst hsp
      exact ⟨_, _, _, _, _, by rw [← ha]⟩

/-! ## Claim C10: the alpha-0 sentinel -/

/-- C10: `getAlfaFromRGBA` maps an absent color and an alpha of `0` to full
opacity `1`; a successful `writeText` whose color is absent or has alpha
`0` therefore draws with opacity `1`; a successful `writeLine` passes no
opacity argument at all (the library's opaque default applies); and only
`writeRectangle`'s area color treats alpha `0` as the `no fill` sentinel,
suppressing both its fill color and its opacity argument. -/
theorem alpha_zero_opacity_semantics :
    (getAlfaFromRGBA none = 1) ∧
    (∀ r g b : ℚ, getAlfaFromRGBA (some ⟨r, g, b, 0⟩) = 1) ∧
    (∀ (st : PDFState) (text : String) (opts : PDFTextOptions) (st2 : PDFState),
      writeText st text opts = (st2, none) →
      (opts.color = none ∨ ∃ r g b, opts.color = some ⟨r, g, b, 0⟩) →
      ∃ cmd, st2.draws = st.draws ++ [cmd] ∧ drawOpacity cmd = some 1) ∧
    (∀ (st : PDFState) (opts : PDFLineOptions) (st2 : PDFState),
      writeLine st opts = (st2, none) →
      ∃ cmd, st2.draws = st.draws ++ [cmd] ∧ drawOpacity cmd = none) ∧
    (∀ (st : PDFState) (opts : PDFRectangleOptions) (st2 : PDFState),
      writeRectangle st opts = (st2, none) → opts.areaColor.a = 0 →
      ∃ cmd, st2.draws = st.draws ++ [cmd] ∧ drawColor cmd = none ∧
        drawOpacity cmd = none) := by
  refine ⟨rfl, fun r g b => by simp [getAlfaFromRGBA], ?_, ?_, ?_⟩
  · intro st text opts st2 hok hcol
    unfold writeText at hok
    split_ifs at hok with hneg
    · injection hok with _ hb
      exact Option.noConfusion hb
    · cases hnt : normalizeText st
        { value := text, align := opts.align, positions := opts.position,
          textWidth := measuredTextWidth st text opts,
          textHeight := measuredTextHeight st opts } with
      | error e =>
        rw [hnt] at hok
        injection hok with _ hb
        exact Option.noConfusion hb
      | ok t =>
        rw [hnt] at hok
        injection hok with ha _
        refine ⟨_, by rw [← ha], ?_⟩
        rcases hcol with hc | ⟨r, g, b, hc⟩ <;> rw [drawOpacity, hc] <;>
          simp [getAlfaFromRGBA]
  · intro st opts st2 hok
    unfold writeLine at hok
    cases h1 : normalizeLine st opts.start with
    | error e =>
      rw [h1] at hok
      injection hok with _ hb
      exact Option.noConfusion hb
    | ok sp =>
      rw [h1] at hok
      cases h2 : normalizeLine st opts.endPos with
      | error e =>
        rw [h2] at hok
        injection hok with _ hb
        exact Option.noConfusion hb
      | ok ep =>
        rw [h2] at hok
        injection hok with ha _
        exact ⟨.line sp.linePosition sp.columnPosition ep.linePosition ep.columnPosition
          opts.thickness (getColorRGBFromRGBA opts.color), by rw [← ha], rfl⟩
  · intro st opts st2 hok h0
    unfold writeRectangle at hok
    cases h1 : normalizeLine st opts.start with
    | error e =>
      rw [h1] at hok
      injection hok with _ hb
      exact Option.noConfusion hb
    | ok sp =>
      rw [h1] at hok
      cases h2 : normalizeLine st ⟨opts.start.linePosition + opts.area.width,
          opts.start.columnPosition + opts.area.height⟩ with
      | error e =>
        rw [h2] at hok
        injection hok with _ hb
        exact Option.noConfusion hb
      | ok q =>
        rw [h2] at hok
        injection hok with ha _
        refine ⟨_, by rw [← ha], ?_, ?_⟩ <;> simp [drawColor, drawOpacity, h0]

/-! ## Concrete drawing scenarios (for the witnesses) -/

/-- A concrete instance state: a `pt`-unit 600×800 page with zero spacing
(the limits are the corresponding `setPageLimits` output). -/
def stW : PDFState where
  doc := [0]
  nextPageId := 1
  unit := .pt
  fontSize := 7.5
  orientation := .portrait
  pageSize := (600, 800)
  pageFraming := ⟨0, 600, 0, 800⟩
  pageSpacing := ⟨0, 0, 0, 0⟩
  limits := ⟨800, 0, 0, 600⟩
  fontName := "Helvetica"
  font := font0
  fontColor := ⟨0, 0, 0, 1⟩
  mergeFiles := []
  pagesControl := 1
  pageSelected := 1
  pageFontSize := 7.5
  pageFontColor := ⟨0, 0, 0⟩
  draws := []
  fs := []

def optsW : PDFTextOptions :=
  { position := ⟨50, 50⟩, align := none, size := some 10, color := none, font := none }

def optsA : PDFTextOptions :=
  { position := ⟨50, 50⟩, align := none, size := some 10,
    color := some ⟨1, 0, 0, 0⟩, font := none }

def optsLW : PDFLineOptions :=
  { start := ⟨100, 100⟩, endPos := ⟨200, 200⟩, thickness := 1, color := none }

def optsRW : PDFRectangleOptions :=
  { start := ⟨100, 100⟩, area := ⟨10, 10⟩, areaColor := ⟨1, 1, 1, 0⟩,
    borderColor := none, borderWidth := none }

theorem writeText_stW_optsW_ok : (writeText stW "Hi" optsW).2 = none := by
  norm_num [writeText, normalizeText, normalizePositions, verifyPositionsByLimit,
    verifyColumnByLimit, verifyLineByLimit, unitNormalizerToPT,
    PDFVerticalAlignmentFormatter, resolvedFontSize, measuredTextWidth,
    measuredTextHeight, jsOr, font0, stW, optsW, columnNormalize,
    show "Hi".length = 2 from rfl,
    show (none : Option PDFTextAligns) ≠ some PDFTextAligns.center from by simp]

theorem writeText_stW_optsA_ok : (writeText stW "Hi" optsA).2 = none := by
  norm_num [writeText, normalizeText, normalizePositions, verifyPositionsByLimit,
    verifyColumnByLimit, verifyLineByLimit, unitNormalizerToPT,
    PDFVerticalAlignmentFormatter, resolvedFontSize, measuredTextWidth,
    measuredTextHeight, jsOr, font0, stW, optsA, columnNormalize,
    show "Hi".length = 2 from rfl,
    show (none : Option PDFTextAligns) ≠ some PDFTextAligns.center from by simp]

theorem writeLine_stW_ok : (writeLine stW optsLW).2 = none := by
  norm_num [writeLine, normalizeLine, verifyPositionsByLimit,
    verifyColumnByLimit, verifyLineByLimit, unitNormalizerToPT,
    stW, optsLW, columnNormalize]

theorem writeRectangle_stW_ok : (writeRectangle stW optsRW).2 = none := by
  norm_num [writeRectangle, normalizeLine, verifyPositionsByLimit,
    verifyColumnByLimit, verifyLineByLimit, unitNormalizerToPT,
    stW, optsRW, columnNormalize]

/-- C2 witness: the theorem applied to the concrete in-bounds call. -/
theorem writeText_checks_before_draw_witness :
    0 ≤ resolvedFontSize stW optsW ∧
    (((writeText stW "Hi" optsW).2 = none ↔
      (stW.pageFraming.columnStartPosition + stW.pageSpacing.top ≤
          unitNormalizerToPT (some stW.unit) (some optsW.position.columnPosition) ∧
       unitNormalizerToPT (some stW.unit) (some optsW.position.columnPosition) ≤
          stW.pageFraming.columnEndPosition - stW.pageSpacing.bottom ∧
       stW.pageFraming.columnStartPosition + stW.pageSpacing.top ≤
          unitNormalizerToPT (some stW.unit) (some optsW.position.columnPosition) -
            measuredTextHeight stW optsW ∧
       stW.limits.startLine ≤ alignedLinePosition stW "Hi" optsW ∧
       alignedLinePosition stW "Hi" optsW ≤ stW.limits.endLine ∧
       alignedLinePosition stW "Hi" optsW +
          (if optsW.align = some .center then measuredTextWidth stW "Hi" optsW / 2
           else measuredTextWidth stW "Hi" optsW) ≤ stW.limits.endLine)) ∧
     (∀ e, (writeText stW "Hi" optsW).2 = some e →
        (writeText stW "Hi" optsW).1 = stW ∧ outOfRangePDFError e = true)) :=
  ⟨by norm_num [resolvedFontSize, jsOr, optsW],
   writeText_checks_before_draw stW "Hi" optsW (by norm_num [resolvedFontSize, jsOr, optsW])⟩

/-- C9 witness: the theorem applied to the concrete in-bounds rectangle. -/
theorem writeRectangle_unit_mix_witness :
    ∃ c o bc bo bw, (writeRectangle stW optsRW).1.draws = stW.draws ++
      [DrawCmd.rectangle
        (unitNormalizerToPT (some stW.unit) (some optsRW.start.linePosition))
        (columnNormalize stW
            (unitNormalizerToPT (some stW.unit) (some optsRW.start.columnPosition)) -
          unitNormalizerToPT (some .mm) (some optsRW.area.height))
        (unitNormalizerToPT (some .mm) (some optsRW.area.width))
        (unitNormalizerToPT (some .mm) (some optsRW.area.height)) c o bc bo bw] := by
  exact writeRectangle_unit_mix stW optsRW _ (by rw [← writeRectangle_stW_ok])

/-- C10 witness: the theorem applied to a concrete alpha-0 text draw, a
concrete line draw, and a concrete alpha-0 rectangle draw. -/
theorem alpha_zero_opacity_semantics_witness :
    (∃ cmd, (writeText stW "Hi" optsA).1.draws = stW.draws ++ [cmd] ∧
      drawOpacity cmd = some 1) ∧
    (∃ cmd, (writeLine stW optsLW).1.draws = stW.draws ++ [cmd] ∧
      drawOpacity cmd = none) ∧
    (∃ cmd, (writeRectangle stW optsRW).1.draws = stW.draws ++ [cmd] ∧
      drawColor cmd = none ∧ drawOpacity cmd = none) :=
  ⟨alpha_zero_opacity_semantics.2.2.1 stW "Hi" optsA _
      (by rw [← writeText_stW_optsA_ok]) (Or.inr ⟨1, 0, 0, rfl⟩),
   alpha_zero_opacity_semantics.2.2.2.1 stW optsLW _
      (by rw [← writeLine_stW_ok]),
   alpha_zero_opacity_semantics.2.2.2.2 stW optsRW _
      (by rw [← writeRectangle_stW_ok]) rfl⟩

/-! ## Concrete lifecycle runs -/

/-- A fresh document created with no options over an empty filesystem. -/
def stSave : PDFState := create [] embedF0 none

/-- A fresh document created over a filesystem holding a two-page source
file (pages `10` and `11`). -/
def stLoad : PDFState := create [(Path.user "source.pdf", [10, 11])] embedF0 none

/-- A document created with `unit: mm` and a 100×100 mm page size. -/
def st100 : PDFState :=
  create [] embedF0 (some { unit := some .mm, pageSize := some ⟨100, 100⟩ })

/-- A text call whose vertical position (900) exceeds the 800-point page. -/
def optsBad : PDFTextOptions :=
  { position := ⟨50, 900⟩, align := none, size := some 10, color := none, font := none }

/-! ## Claim C1: pages accumulate in memory during loadPDF -/

/-- C1 (refuting run): loading a two-page source into a fresh document
leaves *both* source pages in the in-memory document (the copy loop never
resets the document between pages), and the scratch slot written for the
second copied page (`part3`) contains a two-page document — whose first
page is the source's *first* page — rather than a single completed page. -/
theorem loadPDF_multipage_in_memory :
    (loadPDF stLoad (Path.user "source.pdf")).2 = none ∧
    (loadPDF stLoad (Path.user "source.pdf")).1.doc = [10, 11] ∧
    (loadPDF stLoad (Path.user "source.pdf")).1.pagesControl = 3 ∧
    fsRead (loadPDF stLoad (Path.user "source.pdf")).1.fs (Path.scratch 3) =
      some [10, 11] :=
  ⟨rfl, rfl, rfl, rfl⟩

/-! ## Claim C4: save leaves an orphan scratch file -/

/-- C4 (refuting run): `create()` then `save(out)` succeeds, writes the
destination — and leaves the scratch file `part1`, which the pre-save
flush (`saveTheLastPage`) created and the single-page shortcut of
`mergeGroupOfPDF` never deletes, on disk. -/
theorem save_leaves_orphan_scratch :
    (save stSave (Path.user "out.pdf")).2 = none ∧
    fsRead (save stSave (Path.user "out.pdf")).1.fs (Path.user "out.pdf") = some [0] ∧
    existsFS (save stSave (Path.user "out.pdf")).1.fs (Path.scratch 1) = true ∧
    (save stSave (Path.user "out.pdf")).1.mergeFiles = [] :=
  ⟨rfl, rfl, rfl, rfl⟩

/-! ## Claim C3: addPage option fallbacks -/

/-- C3 counterexample: after `create({unit: mm, pageSize: 100×100})`,
`addPage()` with no options does *not* keep the previous page's size — it
falls back to A4. -/
theorem addPage_pageSize_counterexample :
    (addPage embedF0 st100 none).pageSize ≠ st100.pageSize := by
  have h1 : (addPage embedF0 st100 none).pageSize = pageSizesA4 := rfl
  have h2 : st100.pageSize =
      (unitNormalizerToPT (some .mm) (some 100), unitNormalizerToPT (some .mm) (some 100)) := rfl
  rw [h1, h2]
  intro heq
  have h3 := congrArg Prod.fst heq
  have h4 : unitNormalizerToPT (some .mm) (some (100 : ℚ)) = 283.47 := by
    rw [show unitNormalizerToPT (some .mm) (some (100 : ℚ)) =
      (if (100 : ℚ) = 0 then 0 else round2 (100 * (2.83465 : ℚ))) from rfl]
    norm_num [round2]
  rw [h4] at h3
  norm_num [pageSizesA4] at h3

/-- C3 (amended): on `addPage`, an omitted font, unit, font size or font
color independently keeps the previously active value; but an omitted page
size does *not* — whenever the unit or the page size is omitted the new
page falls back to A4 (with the applicable orientation) — and an omitted
page spacing resets every margin to `0` rather than keeping the previous
spacing. -/
theorem addPage_option_fallbacks (embedF : String → PDFFontM) (st : PDFState)
    (pageOptions : Option PDFCreateOptions) :
    (pageOptions.bind (·.font) = none →
        (addPage embedF st pageOptions).fontName = st.fontName) ∧
    (pageOptions.bind (·.unit) = none →
        (addPage embedF st pageOptions).unit = st.unit) ∧
    (pageOptions.bind (·.fontSize) = none →
        (addPage embedF st pageOptions).fontSize = st.fontSize) ∧
    (pageOptions.bind (·.fontColor) = none →
        (addPage embedF st pageOptions).pageFontColor =
          getColorRGBFromRGBA (some st.fontColor)) ∧
    (pageOptions.bind (·.unit) = none ∨ pageOptions.bind (·.pageSize) = none →
        (addPage embedF st pageOptions).pageSize =
          applyOrientation ((pageOptions.bind (·.orientation)).getD st.orientation)
            pageSizesA4) ∧
    (pageOptions.bind (·.pageSpacing) = none →
        (addPage embedF st pageOptions).pageSpacing = ⟨0, 0, 0, 0⟩) := by
  refine ⟨?_, ?_, ?_, ?_, ?_, ?_⟩
  · intro hf
    simp [addPage, createPage, savePage, hf]
  · intro hu
    simp [addPage, createPage, savePage, hu]
  · intro hs
    simp [addPage, createPage, savePage, hs, jsOr]
  · intro hc
    simp [addPage, createPage, savePage, hc]
  · intro hps
    rcases hps with hu | hp
    · simp [addPage, createPage, savePage, hu, PDFGetPageSizeByUnit]
    · cases hu2 : pageOptions.bind (·.unit) with
      | none => simp [addPage, createPage, savePage, hu2, PDFGetPageSizeByUnit]
      | some u => simp [addPage, createPage, savePage, hu2, hp, PDFGetPageSizeByUnit]
  · intro hsp
    simp [addPage, createPage, savePage, hsp, normalizePageSpacing, unitNormalizerToPT]

/-- C3 witness: the amended fallbacks at a concrete `addPage()` with no
options. -/
theorem addPage_option_fallbacks_witness :
    (addPage embedF0 stW none).fontName = stW.fontName ∧
    (addPage embedF0 stW none).unit = stW.unit ∧
    (addPage embedF0 stW none).fontSize = stW.fontSize ∧
    (addPage embedF0 stW none).pageFontColor = getColorRGBFromRGBA (some stW.fontColor) ∧
    (addPage embedF0 stW none).pageSize =
      applyOrientation (((none : Option PDFCreateOptions).bind (·.orientation)).getD
        stW.orientation) pageSizesA4 ∧
    (addPage embedF0 stW none).pageSpacing = ⟨0, 0, 0, 0⟩ :=
  ⟨(addPage_option_fallbacks embedF0 stW none).1 rfl,
   (addPage_option_fallbacks embedF0 stW none).2.1 rfl,
   (addPage_option_fallbacks embedF0 stW none).2.2.1 rfl,
   (addPage_option_fallbacks embedF0 stW none).2.2.2.1 rfl,
   (addPage_option_fallbacks embedF0 stW none).2.2.2.2.1 (Or.inl rfl),
   (addPage_option_fallbacks embedF0 stW none).2.2.2.2.2 rfl⟩

/-! ## Claim C5: which errors leave the record untouched -/

/-- C5 counterexample: `mergePDF` with a single nonexistent path raises the
missing-file error but has already flushed the current page, growing the
scratch record — the record is *not* left exactly as it was. -/
theorem mergePDF_error_mutates_record :
    (mergePDF stSave [Path.user "missing.pdf"]).2 =
      some (.filePathDoesNotExist (Path.user "missing.pdf")) ∧
    (mergePDF stSave [Path.user "missing.pdf"]).1.mergeFiles ≠ stSave.mergeFiles := by
  refine ⟨rfl, ?_⟩
  have h1 : (mergePDF stSave [Path.user "missing.pdf"]).1.mergeFiles =
      [Path.scratch 1] := rfl
  have h2 : stSave.mergeFiles = [] := rfl
  rw [h1, h2]
  simp

/-- C5 (amended): the record-lookup errors of `selectPage`/`removePage`,
the missing-file error of `loadPDF`, the empty-list error of `mergePDF`
and the bounds/negative-value errors of `writeText` are raised before any
mutation, leaving the whole state (in particular the scratch-file record
and the page counter) exactly as it was; `mergePDF` on a list whose first
path does not exist raises the missing-file error with the page counter
unchanged, but only after the current-page flush, which may have appended
the current page's scratch slot to the record. -/
theorem errors_preserve_record (st : PDFState) :
    (∀ n, n ≠ st.pageSelected → st.mergeFiles[n - 1]? = none →
        selectPage st n = (st, some (.pageDoesNotExist n))) ∧
    (∀ n, st.mergeFiles[n - 1]? = none →
        removePage st n = (st, some (.pageDoesNotExist n))) ∧
    (∀ p, existsFS st.fs p = false →
        loadPDF st p = (st, some (.filePathDoesNotExist p))) ∧
    (mergePDF st [] = (st, some .pdfFilesPathEmpty)) ∧
    (∀ text opts e, (writeText st text opts).2 = some e →
        (writeText st text opts).1 = st) ∧
    (∀ s rest, existsFS st.fs (Path.user s) = false →
        (mergePDF st (Path.user s :: rest)).2 =
          some (.filePathDoesNotExist (Path.user s)) ∧
        (mergePDF st (Path.user s :: rest)).1.pagesControl = st.pagesControl ∧
        ((mergePDF st (Path.user s :: rest)).1.mergeFiles = st.mergeFiles ∨
         (mergePDF st (Path.user s :: rest)).1.mergeFiles =
           st.mergeFiles ++ [Path.scratch st.pagesControl])) := by
  refine ⟨?_, ?_, ?_, rfl, ?_, ?_⟩
  · intro n hn hlook
    simp [selectPage, hn, hlook]
  · intro n hlook
    simp [removePage, hlook]
  · intro p hex
    simp [loadPDF, hex]
  · intro text opts e he
    unfold writeText at he ⊢
    split_ifs at he ⊢
    · rfl
    · cases hnt : normalizeText st
        { value := text, align := opts.align, positions := opts.position,
          textWidth := measuredTextWidth st text opts,
          textHeight := measuredTextHeight st opts } with
      | error e2 => rfl
      | ok t =>
        rw [hnt] at he
        exact Option.noConfusion he
  · intro s rest hex
    have hex2 : existsFS (savePage st none).fs (Path.user s) = false := by
      simp only [savePage, existsFS, fsWrite, fsRead] at hex ⊢
      simp [hex]
    have hrun : mergePDF st (Path.user s :: rest) =
        (savePage st none, some (.filePathDoesNotExist (Path.user s))) := by
      unfold mergePDF
      rw [if_neg (by simp)]
      unfold mergeFilesLoop
      rw [hex2]
      rfl
    rw [hrun]
    refine ⟨rfl, rfl, ?_⟩
    have hmf : (savePage st none).mergeFiles =
        if st.mergeFiles.contains (Path.scratch st.pagesControl) then st.mergeFiles
        else st.mergeFiles ++ [Path.scratch st.pagesControl] := rfl
    rw [hmf]
    by_cases hc : st.mergeFiles.contains (Path.scratch st.pagesControl) = true
    · left
      rw [if_pos hc]
    · right
      rw [if_neg hc]

/-- C5 witness: the amended statement at concrete erroring calls. -/
theorem errors_preserve_record_witness :
    selectPage stW 2 = (stW, some (.pageDoesNotExist 2)) ∧
    removePage stW 1 = (stW, some (.pageDoesNotExist 1)) ∧
    loadPDF stW (Path.user "nope.pdf") =
      (stW, some (.filePathDoesNotExist (Path.user "nope.pdf"))) ∧
    mergePDF stW [] = (stW, some .pdfFilesPathEmpty) ∧
    (writeText stW "Hi" optsBad).1 = stW ∧
    (mergePDF stW [Path.user "missing.pdf"]).1.pagesControl = stW.pagesControl := by
  have hbad : (writeText stW "Hi" optsBad).2 = some (.columnIsOutRange 900 800) := by
    norm_num [writeText, normalizeText, normalizePositions, verifyPositionsByLimit,
      verifyColumnByLimit, verifyLineByLimit, unitNormalizerToPT,
      PDFVerticalAlignmentFormatter, resolvedFontSize, measuredTextWidth,
      measuredTextHeight, jsOr, font0, stW, optsBad, columnNormalize,
      show "Hi".length = 2 from rfl,
      show (none : Option PDFTextAligns) ≠ some PDFTextAligns.center from by simp]
  exact ⟨(errors_preserve_record stW).1 2 (by decide) rfl,
    (errors_preserve_record stW).2.1 1 rfl,
    (errors_preserve_record stW).2.2.1 (Path.user "nope.pdf") rfl,
    (errors_preserve_record stW).2.2.2.1,
    (errors_preserve_record stW).2.2.2.2.1 "Hi" optsBad _ hbad,
    ((errors_preserve_record stW).2.2.2.2.2 "missing.pdf" [] rfl).2.1⟩

end AsyncPDF
